import Mathlib

/-!
A shallow embedding of the checking orchestrator of cppcheck
(`src/lib/cppcheck.h`).  The repository ships only the declaration header;
every method body other than `CppCheck::terminate` (which inlines
`_settings.terminate()`) is absent from `src/`, so the behaviour of the
operations is modelled from the specification, as noted on each definition.
The state record mirrors the private fields declared in
`src/lib/cppcheck.h` lines 149-164.
-/

/-- Modelled from the spec: `settings.h` is not under `src/`.  Per spec §3
the `Settings` value object holds enabled diagnostic categories /
check-specific toggles and a mutable termination flag. -/
structure Settings where
  _checkCodingStyle : Bool
  _showAll : Bool
  _terminate : Bool
deriving DecidableEq

/-- Modelled from the spec: `Settings::terminate` (called by
`CppCheck::terminate`, `src/lib/cppcheck.h:115`) sets the termination flag;
per spec §4.2 it only ever transitions the flag to "terminated". -/
def Settings.terminate (s : Settings) : Settings :=
  { s with _terminate := true }

/-- Modelled from the spec: `errorlogger.h` is not under `src/`.  A
diagnostic per spec §3: severity, file, line, message text, and a
message-category used in the deduplication identity key. -/
structure ErrorMessage where
  severity : String
  file : String
  line : Nat
  category : String
  message : String
deriving DecidableEq

/-- Modelled from the spec: the stable identity key used for deduplication
is file + line + message-category (spec §3, "Diagnostic"). -/
def ErrorMessage.key (m : ErrorMessage) : String × Nat × String :=
  (m.file, m.line, m.category)

/-- Association list standing for `std::map<std::string, std::string>`
(`_fileContents`, `src/lib/cppcheck.h:158`): lookup by file name. -/
def lookupContent : List (String × String) → String → Option String
  | [], _ => none
  | (q, w) :: rest, p => if q = p then some w else lookupContent rest p

/-- Insert-or-replace into the path→content map: replacing the value of an
existing equal key in place, appending a fresh key at the end. -/
def insertContent : List (String × String) → String → String → List (String × String)
  | [], p, v => [(p, v)]
  | (q, w) :: rest, p, v =>
      if q = p then (q, v) :: rest else (q, w) :: insertContent rest p v

/-- The orchestrator state: the private fields of class `CppCheck`
(`src/lib/cppcheck.h:149-164`).  `_errorList` holds the diagnostics
recorded during the current run, `_filenames` the ordered registry,
`_fileContents` the path→content overrides, `cfg` the current
preprocessor configuration. -/
structure CppCheck where
  exitcode : Nat
  _errorList : List ErrorMessage
  _errout : String
  _settings : Settings
  _filenames : List String
  _fileContents : List (String × String)
  cfg : String
deriving DecidableEq

/-- `CppCheck::terminate` (`src/lib/cppcheck.h:113-116`): the body is in
the header and only calls `_settings.terminate()`. -/
def CppCheck.terminate (c : CppCheck) : CppCheck :=
  { c with _settings := c._settings.terminate }

/-- Modelled from the spec: `CppCheck::addFile(path)`
(`src/lib/cppcheck.h:84`, body not under `src/`); spec §4.1: appends the
path if not already present, content left unset. -/
def CppCheck.addFile (c : CppCheck) (path : String) : CppCheck :=
  if path ∈ c._filenames then c
  else { c with _filenames := c._filenames ++ [path] }

/-- Modelled from the spec: the two-argument overload
`CppCheck::addFile(path, content)` (`src/lib/cppcheck.h:93`, body not
under `src/`); spec §4.1: appends the path (or replaces the content of an
existing equal path) with the given literal content. -/
def CppCheck.addFileContent (c : CppCheck) (path content : String) : CppCheck :=
  { c with
    _filenames :=
      if path ∈ c._filenames then c._filenames else c._filenames ++ [path],
    _fileContents := insertContent c._fileContents path content }

/-- Modelled from the spec: `CppCheck::clearFiles`
(`src/lib/cppcheck.h:98`, body not under `src/`); spec §4.1 `clear()`:
empties the registry entirely. -/
def CppCheck.clearFiles (c : CppCheck) : CppCheck :=
  { c with _filenames := [], _fileContents := [] }

/-- `CppCheck::filenames` (`src/lib/cppcheck.h:106`): the ordered sequence
of registered paths. -/
def CppCheck.filenames (c : CppCheck) : List String :=
  c._filenames

/-- Modelled from the spec: the error-reporting path
`CppCheck::reportErr` (`src/lib/cppcheck.h:140`, body not under `src/`)
feeding `_errorList`; spec §4.3 `record`: if an equal identity key was
already recorded during the current run the call is a no-op, otherwise
the diagnostic is appended. -/
def recordErr (errs : List ErrorMessage) (m : ErrorMessage) : List ErrorMessage :=
  if errs.any (fun e => e.key = m.key) then errs else errs ++ [m]

/-- Forward a sequence of diagnostics to the aggregator one by one. -/
def recordAll (errs : List ErrorMessage) (ms : List ErrorMessage) : List ErrorMessage :=
  ms.foldl recordErr errs

/-- The external collaborators of one run (spec §2, §4.5): the disk, the
preprocessor (content → configuration variants) and the registered check
modules (file name → content → configuration → diagnostics). -/
structure Checkers where
  disk : String → Option String
  configs : String → List String
  modules : List (String → String → String → List ErrorMessage)

/-- What happened while processing one registered file: its position in
the run, the resolved content (`none` = read failure) and the diagnostics
emitted to the aggregator for it. -/
structure FileEvent where
  index : Nat
  file : String
  content : Option String
  emitted : List ErrorMessage
deriving DecidableEq

/-- Modelled from the spec: the diagnostic recorded for a file whose
content could not be resolved (spec §4.4 step 1, §7: a file-access
failure is recorded as a diagnostic tied to that file). -/
def fileFailure (path : String) : ErrorMessage :=
  { severity := "error", file := path, line := 0,
    category := "failedToLoad",
    message := "Failed to load " ++ path }

/-- Modelled from the spec: the diagnostics produced while analysing one
file's content — each preprocessor configuration in the collaborator's
order, and within it every check module in order (spec §4.4 steps 2-3). -/
def analyseContent (env : Checkers) (file content : String) : List ErrorMessage :=
  (env.configs content).flatMap fun cfgLabel =>
    env.modules.flatMap fun m => m file content cfgLabel

/-- Modelled from the spec: processing of one registered file at position
`i` (spec §4.4 step 1-3).  Content resolution consults the registered
override first and the disk only otherwise; a failed resolution is
recorded as a single diagnostic tied to the file. -/
def processFile (env : Checkers) (fc : List (String × String)) (i : Nat)
    (f : String) : FileEvent :=
  let content :=
    match lookupContent fc f with
    | some c => some c
    | none => env.disk f
  let emitted :=
    match content with
    | none => [fileFailure f]
    | some c => analyseContent env f c
  { index := i, file := f, content := content, emitted := emitted }

/-- Modelled from the spec: the per-file loop of `CppCheck::check`
(`src/lib/cppcheck.h:59`, body not under `src/`), spec §4.4.  `flag0` is
the termination flag at run start; `sched i = true` means an external
`terminate()` signal has arrived by the time the flag is re-checked
before file `i` (spec §4.2). -/
def runLoop (env : Checkers) (fc : List (String × String)) (sched : Nat → Bool)
    (flag0 : Bool) : List String → Nat → List FileEvent
  | [], _ => []
  | f :: rest, i =>
      if flag0 || sched i then []
      else processFile env fc i f :: runLoop env fc sched flag0 rest (i + 1)

/-- The observable trace of one run of `CppCheck::check`: one event per
processed file, in processing order. -/
def CppCheck.checkTrace (env : Checkers) (sched : Nat → Bool) (c : CppCheck) :
    List FileEvent :=
  runLoop env c._fileContents sched c._settings._terminate c._filenames 0

/-- Modelled from the spec: `CppCheck::check` (`src/lib/cppcheck.h:59`,
body not under `src/`).  A run starts with an empty aggregator (spec
§4.3), forwards every emitted diagnostic to it in trace order, and
returns the count of unique diagnostics together with the recorded list
(spec §3, "RunResult"). -/
def CppCheck.check (env : Checkers) (sched : Nat → Bool) (c : CppCheck) :
    Nat × List ErrorMessage :=
  let errs := recordAll [] ((CppCheck.checkTrace env sched c).flatMap FileEvent.emitted)
  (errs.length, errs)

/-! ### Basic equations and sample data -/

theorem runLoop_nil (env : Checkers) (fc : List (String × String))
    (sched : Nat → Bool) (flag0 : Bool) (i : Nat) :
    runLoop env fc sched flag0 [] i = [] := rfl

theorem runLoop_cons (env : Checkers) (fc : List (String × String))
    (sched : Nat → Bool) (flag0 : Bool) (f : String) (rest : List String) (i : Nat) :
    runLoop env fc sched flag0 (f :: rest) i =
      if flag0 || sched i then []
      else processFile env fc i f :: runLoop env fc sched flag0 rest (i + 1) := rfl

@[simp] theorem processFile_index (env : Checkers) (fc : List (String × String))
    (i : Nat) (f : String) : (processFile env fc i f).index = i := rfl

@[simp] theorem processFile_file (env : Checkers) (fc : List (String × String))
    (i : Nat) (f : String) : (processFile env fc i f).file = f := rfl

theorem runLoop_flag_true (env : Checkers) (fc : List (String × String))
    (sched : Nat → Bool) (l : List String) (i : Nat) :
    runLoop env fc sched true l i = [] := by
  cases l with
  | nil => rfl
  | cons f rest => simp [runLoop_cons]

/-- Sample diagnostic used by witnesses. -/
def msgA : ErrorMessage :=
  { severity := "error", file := "main.cpp", line := 4,
    category := "uninitMember", message := "Uninitialized member variable" }

/-- Sample diagnostic sharing `msgA`'s identity key (same file, line and
category) but carrying a different severity and text. -/
def msgB : ErrorMessage :=
  { severity := "style", file := "main.cpp", line := 4,
    category := "uninitMember", message := "Member variable not initialized" }

/-- Sample collaborators used by witnesses: every file is missing on disk,
one preprocessor configuration, one check module reporting one finding. -/
def sampleEnv : Checkers :=
  { disk := fun _ => none,
    configs := fun _ => [""],
    modules := [fun f _ _ => [{ severity := "error", file := f, line := 1,
                                category := "sample", message := "finding" }]] }

/-- Sample orchestrator state: two registered files with literal content,
termination flag unset. -/
def sampleState : CppCheck :=
  { exitcode := 0, _errorList := [], _errout := "",
    _settings := { _checkCodingStyle := true, _showAll := false, _terminate := false },
    _filenames := ["a.c", "b.c"],
    _fileContents := [("a.c", "int a;"), ("b.c", "int b;")],
    cfg := "" }

/-! ### C9, C10: terminate -/

/-- C9: `CppCheck::terminate` only ever transitions the termination flag to
"terminated" (after the call the flag is `true`, whatever it was before, so
it never transitions the reverse way), and calling it a second time leaves
the state identical to calling it once. -/
theorem terminate_sets_flag_and_idempotent (c : CppCheck) :
    (CppCheck.terminate c)._settings._terminate = true ∧
    CppCheck.terminate (CppCheck.terminate c) = CppCheck.terminate c := by
  constructor
  · rfl
  · rfl

/-- C10: `CppCheck::terminate` mutates only the termination flag inside the
settings object: the registered file-name list, the path→content override
map, the accumulated error list, the current preprocessor configuration,
the exit code, the output buffer and the non-flag settings fields are all
unchanged by the call. -/
theorem terminate_frame (c : CppCheck) :
    (CppCheck.terminate c)._filenames = c._filenames ∧
    (CppCheck.terminate c)._fileContents = c._fileContents ∧
    (CppCheck.terminate c)._errorList = c._errorList ∧
    (CppCheck.terminate c).cfg = c.cfg ∧
    (CppCheck.terminate c).exitcode = c.exitcode ∧
    (CppCheck.terminate c)._errout = c._errout ∧
    (CppCheck.terminate c)._settings._checkCodingStyle = c._settings._checkCodingStyle ∧
    (CppCheck.terminate c)._settings._showAll = c._settings._showAll :=
  ⟨rfl, rfl, rfl, rfl, rfl, rfl, rfl, rfl⟩

/-! ### C8: clearFiles -/

/-- C8: after `clearFiles` the registry's path list is empty, and a run
started afterwards processes zero files (empty trace) and returns 0. -/
theorem clearFiles_empties_registry (env : Checkers) (sched : Nat → Bool)
    (c : CppCheck) :
    (CppCheck.clearFiles c)._filenames = [] ∧
    CppCheck.checkTrace env sched (CppCheck.clearFiles c) = [] ∧
    CppCheck.check env sched (CppCheck.clearFiles c) = (0, []) :=
  ⟨rfl, rfl, rfl⟩

/-! ### C3: termination flag set before the run -/

/-- C3: if the termination flag is set before any file is processed, the
subsequent `check` call processes zero files (empty trace) and returns 0;
the result is an ordinary value, not an error. -/
theorem check_of_terminated_before (env : Checkers) (sched : Nat → Bool)
    (c : CppCheck) (h : c._settings._terminate = true) :
    CppCheck.checkTrace env sched c = [] ∧
    CppCheck.check env sched c = (0, []) := by
  have htrace : CppCheck.checkTrace env sched c = [] := by
    unfold CppCheck.checkTrace
    rw [h]
    exact runLoop_flag_true env c._fileContents sched c._filenames 0
  refine ⟨htrace, ?_⟩
  unfold CppCheck.check
  rw [htrace]
  rfl

/-- Witness for C3: the sample state with the flag set, under the sample
collaborators and no external signal. -/
theorem check_of_terminated_before_witness :
    CppCheck.checkTrace sampleEnv (fun _ => false) (CppCheck.terminate sampleState) = [] ∧
    CppCheck.check sampleEnv (fun _ => false) (CppCheck.terminate sampleState) = (0, []) :=
  check_of_terminated_before sampleEnv (fun _ => false)
    (CppCheck.terminate sampleState) rfl

/-! ### Run-shape lemmas -/

theorem runLoop_map_file_of_no_signal (env : Checkers) (fc : List (String × String))
    (sched : Nat → Bool) (h : ∀ j, sched j = false) :
    ∀ (l : List String) (i : Nat),
      (runLoop env fc sched false l i).map FileEvent.file = l := by
  intro l
  induction l with
  | nil => intro i; rfl
  | cons f rest ih =>
      intro i
      rw [runLoop_cons]
      simp [h i, ih (i + 1)]

theorem runLoop_getElem_of_no_signal (env : Checkers) (fc : List (String × String))
    (sched : Nat → Bool) (h : ∀ j, sched j = false) :
    ∀ (l : List String) (i j : Nat),
      (runLoop env fc sched false l i)[j]? = (l[j]?).map (processFile env fc (i + j)) := by
  intro l
  induction l with
  | nil => intro i j; rfl
  | cons f rest ih =>
      intro i j
      rw [runLoop_cons]
      simp only [h i, Bool.or_self, if_neg Bool.false_ne_true]
      cases j with
      | zero => simp
      | succ j' =>
          simp only [List.getElem?_cons_succ]
          rw [ih (i + 1) j']
          have harith : i + 1 + j' = i + (j' + 1) := by omega
          rw [harith]

theorem runLoop_index_range (env : Checkers) (fc : List (String × String))
    (sched : Nat → Bool) (flag0 : Bool) :
    ∀ (l : List String) (i : Nat),
      (runLoop env fc sched flag0 l i).map FileEvent.index =
        List.range' i (runLoop env fc sched flag0 l i).length := by
  intro l
  induction l with
  | nil => intro i; rfl
  | cons f rest ih =>
      intro i
      rw [runLoop_cons]
      by_cases hstop : (flag0 || sched i) = true
      · simp [hstop]
      · simp only [Bool.not_eq_true] at hstop
        simp only [hstop, if_neg Bool.false_ne_true, List.map_cons, List.length_cons,
          processFile_index]
        rw [ih (i + 1), List.range'_succ]

theorem runLoop_file_take (env : Checkers) (fc : List (String × String))
    (sched : Nat → Bool) (flag0 : Bool) :
    ∀ (l : List String) (i : Nat),
      ∃ t, (runLoop env fc sched flag0 l i).map FileEvent.file = l.take t := by
  intro l
  induction l with
  | nil => intro i; exact ⟨0, rfl⟩
  | cons f rest ih =>
      intro i
      rw [runLoop_cons]
      by_cases hstop : (flag0 || sched i) = true
      · exact ⟨0, by simp [hstop]⟩
      · simp only [Bool.not_eq_true] at hstop
        obtain ⟨t, ht⟩ := ih (i + 1)
        refine ⟨t + 1, ?_⟩
        simp only [hstop, if_neg Bool.false_ne_true, List.map_cons, processFile_file,
          List.take_succ_cons, ht]

/-! ### C5: files processed strictly in registration order -/

/-- C5: in every run the processed files form a prefix of the registration
order (`filenames`), and the trace's file indices are exactly
`0, 1, 2, …` in order — so every diagnostic of file *i* is emitted to the
aggregator before any diagnostic of file *i+1*. -/
theorem check_processes_in_registration_order (env : Checkers)
    (sched : Nat → Bool) (c : CppCheck) :
    (∃ t, (CppCheck.checkTrace env sched c).map FileEvent.file =
        (CppCheck.filenames c).take t) ∧
    (CppCheck.checkTrace env sched c).map FileEvent.index =
      List.range (CppCheck.checkTrace env sched c).length := by
  constructor
  · exact runLoop_file_take env c._fileContents sched c._settings._terminate
      c._filenames 0
  · rw [List.range_eq_range']
    exact runLoop_index_range env c._fileContents sched c._settings._terminate
      c._filenames 0

/-! ### C2: termination after file k -/

theorem runLoop_cut (env : Checkers) (fc : List (String × String))
    (sched : Nat → Bool) (k : Nat) (hs : ∀ j, sched j = decide (k ≤ j)) :
    ∀ (l : List String) (i : Nat), i ≤ k →
      runLoop env fc sched false l i =
        runLoop env fc (fun _ => false) false (l.take (k - i)) i := by
  intro l
  induction l with
  | nil => intro i _; simp [runLoop_nil]
  | cons f rest ih =>
      intro i hik
      rw [runLoop_cons]
      by_cases hlt : i < k
      · have hsi : sched i = false := by
          rw [hs i]
          simp [Nat.not_le.mpr hlt]
        have hki : k - i = (k - (i + 1)) + 1 := by omega
        rw [hki, List.take_succ_cons, runLoop_cons]
        simp only [hsi, Bool.or_self, if_neg Bool.false_ne_true, Bool.or_false]
        rw [ih (i + 1) hlt]
      · have hik' : i = k := by omega
        have hsi : sched i = true := by rw [hs i, hik']; simp
        have hki : k - i = 0 := by omega
        simp [hsi, hki, runLoop_nil]

/-- C2: if the run starts with the flag unset and a `terminate()` signal
arrives exactly after file *k* completes (the flag reads `false` before
files `0..k-1` and `true` from file `k` on), the run's trace — hence its
recorded diagnostics and returned count — is identical to a full,
unsignalled run over only the first *k* registered files: files `k+1..m`
produce no diagnostics, and `check` returns the accumulated count as an
ordinary value. -/
theorem check_terminated_after_k (env : Checkers) (sched : Nat → Bool)
    (c : CppCheck) (k : Nat)
    (hflag : c._settings._terminate = false)
    (_hk : k < c._filenames.length)
    (hs : ∀ j, sched j = decide (k ≤ j)) :
    CppCheck.checkTrace env sched c =
      CppCheck.checkTrace env (fun _ => false)
        { c with _filenames := c._filenames.take k } ∧
    CppCheck.check env sched c =
      CppCheck.check env (fun _ => false)
        { c with _filenames := c._filenames.take k } ∧
    (CppCheck.checkTrace env sched c).map FileEvent.file = c._filenames.take k := by
  have htrace : CppCheck.checkTrace env sched c =
      CppCheck.checkTrace env (fun _ => false)
        { c with _filenames := c._filenames.take k } := by
    unfold CppCheck.checkTrace
    simp only [hflag]
    have := runLoop_cut env c._fileContents sched k hs c._filenames 0 (Nat.zero_le k)
    simpa using this
  refine ⟨htrace, ?_, ?_⟩
  · unfold CppCheck.check
    rw [htrace]
  · rw [htrace]
    unfold CppCheck.checkTrace
    simp only [hflag]
    rw [runLoop_map_file_of_no_signal env c._fileContents (fun _ => false)
      (fun _ => rfl)]

/-- Witness for C2: the sample two-file state with a signal arriving after
the first file. -/
theorem check_terminated_after_k_witness :
    CppCheck.checkTrace sampleEnv (fun j => decide (1 ≤ j)) sampleState =
      CppCheck.checkTrace sampleEnv (fun _ => false)
        { sampleState with _filenames := sampleState._filenames.take 1 } ∧
    CppCheck.check sampleEnv (fun j => decide (1 ≤ j)) sampleState =
      CppCheck.check sampleEnv (fun _ => false)
        { sampleState with _filenames := sampleState._filenames.take 1 } ∧
    (CppCheck.checkTrace sampleEnv (fun j => decide (1 ≤ j)) sampleState).map
        FileEvent.file = sampleState._filenames.take 1 :=
  check_terminated_after_k sampleEnv (fun j => decide (1 ≤ j)) sampleState 1
    rfl (by decide) (fun _ => rfl)

/-! ### C4: unreadable file -/

/-- C4: a registered path with no literal content that cannot be read from
disk yields, at its position in the trace, exactly one emitted diagnostic
— the file-access-failure diagnostic attributed to that path — and the
run still processes every registered file (no exception aborts it). -/
theorem check_missing_file_one_diagnostic (env : Checkers) (sched : Nat → Bool)
    (c : CppCheck) (i : Nat) (p : String)
    (hflag : c._settings._terminate = false)
    (hsched : ∀ j, sched j = false)
    (hp : c._filenames[i]? = some p)
    (hc : lookupContent c._fileContents p = none)
    (hd : env.disk p = none) :
    (CppCheck.checkTrace env sched c)[i]? =
      some { index := i, file := p, content := none, emitted := [fileFailure p] } ∧
    (CppCheck.checkTrace env sched c).map FileEvent.file = c._filenames := by
  constructor
  · unfold CppCheck.checkTrace
    rw [hflag, runLoop_getElem_of_no_signal env c._fileContents sched hsched
      c._filenames 0 i, hp]
    simp [processFile, hc, hd]
  · unfold CppCheck.checkTrace
    rw [hflag]
    exact runLoop_map_file_of_no_signal env c._fileContents sched hsched
      c._filenames 0

/-- Witness for C4: a state registering `a.c` (with content) and the
missing `ghost.c`, under collaborators whose disk has no files. -/
theorem check_missing_file_one_diagnostic_witness :
    (CppCheck.checkTrace sampleEnv (fun _ => false)
        (CppCheck.addFile sampleState "ghost.c"))[2]? =
      some { index := 2, file := "ghost.c", content := none,
             emitted := [fileFailure "ghost.c"] } ∧
    (CppCheck.checkTrace sampleEnv (fun _ => false)
        (CppCheck.addFile sampleState "ghost.c")).map FileEvent.file =
      (CppCheck.addFile sampleState "ghost.c")._filenames :=
  check_missing_file_one_diagnostic sampleEnv (fun _ => false)
    (CppCheck.addFile sampleState "ghost.c") 2 "ghost.c"
    rfl (fun _ => rfl) (by decide) (by decide) rfl

/-! ### C6: registered content is authoritative -/

theorem analyseContent_congr (env₁ env₂ : Checkers)
    (hconfigs : env₁.configs = env₂.configs)
    (hmods : env₁.modules = env₂.modules) (f ct : String) :
    analyseContent env₁ f ct = analyseContent env₂ f ct := by
  unfold analyseContent
  rw [hconfigs, hmods]

theorem processFile_congr (env₁ env₂ : Checkers) (fc : List (String × String))
    (i : Nat) (f : String)
    (hconfigs : env₁.configs = env₂.configs)
    (hmods : env₁.modules = env₂.modules)
    (hdiskf : lookupContent fc f = none → env₁.disk f = env₂.disk f) :
    processFile env₁ fc i f = processFile env₂ fc i f := by
  cases hl : lookupContent fc f with
  | some w => simp [processFile, hl, analyseContent_congr env₁ env₂ hconfigs hmods]
  | none =>
      have hd := hdiskf hl
      cases hdv : env₂.disk f with
      | some w =>
          simp [processFile, hl, hd, hdv,
            analyseContent_congr env₁ env₂ hconfigs hmods]
      | none => simp [processFile, hl, hd, hdv]

theorem runLoop_congr_env (env₁ env₂ : Checkers) (fc : List (String × String))
    (sched : Nat → Bool) (flag0 : Bool)
    (h : ∀ (i : Nat) (f : String), processFile env₁ fc i f = processFile env₂ fc i f) :
    ∀ (l : List String) (i : Nat),
      runLoop env₁ fc sched flag0 l i = runLoop env₂ fc sched flag0 l i := by
  intro l
  induction l with
  | nil => intro i; rfl
  | cons f rest ih =>
      intro i
      rw [runLoop_cons, runLoop_cons, h i f, ih (i + 1)]

theorem runLoop_content_registered (env : Checkers) (fc : List (String × String))
    (sched : Nat → Bool) (flag0 : Bool) (p ct : String)
    (hct : lookupContent fc p = some ct) :
    ∀ (l : List String) (i : Nat),
      ∀ e ∈ runLoop env fc sched flag0 l i, e.file = p → e.content = some ct := by
  intro l
  induction l with
  | nil => intro i e he; simp [runLoop_nil] at he
  | cons f rest ih =>
      intro i e he hef
      rw [runLoop_cons] at he
      by_cases hstop : (flag0 || sched i) = true
      · rw [if_pos hstop] at he
        simp at he
      · simp only [Bool.not_eq_true] at hstop
        rw [if_neg (by simp [hstop])] at he
        rcases List.mem_cons.mp he with heq | hmem
        · subst heq
          have hf : f = p := by simpa using hef
          subst hf
          simp [processFile, hct]
        · exact ih (i + 1) e hmem hef

/-- C6: for a path registered with literal content, the run never consults
the disk for that path — two collaborator environments that differ only in
that path's disk entry produce identical traces — and every trace event of
that path analyses exactly the registered content. -/
theorem check_registered_content_authoritative (env₁ env₂ : Checkers)
    (sched : Nat → Bool) (c : CppCheck) (p ct : String)
    (hct : lookupContent c._fileContents p = some ct)
    (hdisk : ∀ q, q ≠ p → env₁.disk q = env₂.disk q)
    (hconfigs : env₁.configs = env₂.configs)
    (hmods : env₁.modules = env₂.modules) :
    CppCheck.checkTrace env₁ sched c = CppCheck.checkTrace env₂ sched c ∧
    ∀ e ∈ CppCheck.checkTrace env₁ sched c, e.file = p → e.content = some ct := by
  constructor
  · unfold CppCheck.checkTrace
    apply runLoop_congr_env
    intro i f
    apply processFile_congr env₁ env₂ c._fileContents i f hconfigs hmods
    intro hl
    by_cases hf : f = p
    · rw [hf] at hl
      rw [hct] at hl
      cases hl
    · exact hdisk f hf
  · intro e he hef
    exact runLoop_content_registered env₁ c._fileContents sched
      c._settings._terminate p ct hct c._filenames 0 e he hef

/-- Witness for C6: the sample state (which registers content for `a.c`),
against the sample collaborators and a variant whose disk claims a junk
entry for `a.c`. -/
theorem check_registered_content_authoritative_witness :
    CppCheck.checkTrace
        { sampleEnv with disk := fun q => if q = "a.c" then some "junk" else none }
        (fun _ => false) sampleState =
      CppCheck.checkTrace sampleEnv (fun _ => false) sampleState ∧
    ∀ e ∈ CppCheck.checkTrace
        { sampleEnv with disk := fun q => if q = "a.c" then some "junk" else none }
        (fun _ => false) sampleState,
      e.file = "a.c" → e.content = some "int a;" :=
  check_registered_content_authoritative
    { sampleEnv with disk := fun q => if q = "a.c" then some "junk" else none }
    sampleEnv (fun _ => false) sampleState "a.c" "int a;"
    (by decide) (fun q hq => by simp [sampleEnv, hq]) rfl rfl

/-! ### C7: registering a path twice with literal content -/

theorem insertContent_insert_same (p v w : String) :
    ∀ m : List (String × String),
      insertContent (insertContent m p v) p w = insertContent m p w := by
  intro m
  induction m with
  | nil => simp [insertContent]
  | cons qu rest ih =>
      obtain ⟨q, u⟩ := qu
      by_cases hq : q = p
      · simp [insertContent, hq]
      · simp [insertContent, hq, ih]

theorem lookupContent_insert_same (p v : String) :
    ∀ m : List (String × String),
      lookupContent (insertContent m p v) p = some v := by
  intro m
  induction m with
  | nil => simp [insertContent, lookupContent]
  | cons qu rest ih =>
      obtain ⟨q, u⟩ := qu
      by_cases hq : q = p
      · simp [insertContent, hq, lookupContent]
      · simp [insertContent, hq, lookupContent, ih]

/-- C7: registering the same path twice with literal content leaves the
state exactly as if only the second registration had happened — so a
subsequent run's diagnostics reflect only the second content — the stored
content under the identical key is the latest one, and the path appears at
most once in the processed-file order. -/
theorem addFileContent_twice_keeps_latest (c : CppCheck) (p c₁ c₂ : String)
    (h : c._filenames.Nodup) :
    CppCheck.addFileContent (CppCheck.addFileContent c p c₁) p c₂ =
      CppCheck.addFileContent c p c₂ ∧
    lookupContent
      (CppCheck.addFileContent (CppCheck.addFileContent c p c₁) p c₂)._fileContents
      p = some c₂ ∧
    ((CppCheck.addFileContent c p c₂)._filenames).count p ≤ 1 := by
  have hpA : p ∈ (if p ∈ c._filenames then c._filenames else c._filenames ++ [p]) := by
    by_cases hp : p ∈ c._filenames
    · simp [hp]
    · simp [hp]
  refine ⟨?_, ?_, ?_⟩
  · simp [CppCheck.addFileContent, hpA, insertContent_insert_same]
  · simp [CppCheck.addFileContent, lookupContent_insert_same]
  · have hnodup : ((CppCheck.addFileContent c p c₂)._filenames).Nodup := by
      simp only [CppCheck.addFileContent]
      by_cases hp : p ∈ c._filenames
      · simpa [hp] using h
      · rw [if_neg hp]
        refine h.append (List.nodup_singleton p) ?_
        intro a ha hmem
        rw [List.mem_singleton] at hmem
        subst hmem
        exact hp ha
    exact List.nodup_iff_count_le_one.mp hnodup p

/-- Witness for C7: the sample state, registering `a.c` twice with two
different contents. -/
theorem addFileContent_twice_keeps_latest_witness :
    CppCheck.addFileContent (CppCheck.addFileContent sampleState "a.c"
        "int f0;") "a.c" "int f1;" =
      CppCheck.addFileContent sampleState "a.c" "int f1;" ∧
    lookupContent
      (CppCheck.addFileContent (CppCheck.addFileContent sampleState "a.c"
          "int f0;") "a.c" "int f1;")._fileContents
      "a.c" = some "int f1;" ∧
    ((CppCheck.addFileContent sampleState "a.c"
        "int f1;")._filenames).count "a.c" ≤ 1 :=
  addFileContent_twice_keeps_latest sampleState "a.c" "int f0;"
    "int f1;" (by decide)

/-! ### C1: deduplication in the error aggregator -/

theorem recordErr_key_toFinset (errs : List ErrorMessage) (m : ErrorMessage) :
    ((recordErr errs m).map ErrorMessage.key).toFinset =
      insert m.key (errs.map ErrorMessage.key).toFinset := by
  unfold recordErr
  by_cases hdup : errs.any (fun e => e.key = m.key) = true
  · rw [if_pos hdup]
    have hmem : m.key ∈ (errs.map ErrorMessage.key).toFinset := by
      rw [List.any_eq_true] at hdup
      obtain ⟨e, he, hk⟩ := hdup
      rw [List.mem_toFinset, List.mem_map]
      exact ⟨e, he, of_decide_eq_true hk⟩
    rw [Finset.insert_eq_self.mpr hmem]
  · rw [if_neg hdup]
    rw [List.map_append, List.toFinset_append]
    simp [Finset.insert_eq, Finset.union_comm]

theorem recordErr_key_nodup (errs : List ErrorMessage) (m : ErrorMessage)
    (h : (errs.map ErrorMessage.key).Nodup) :
    ((recordErr errs m).map ErrorMessage.key).Nodup := by
  unfold recordErr
  by_cases hdup : errs.any (fun e => e.key = m.key) = true
  · rw [if_pos hdup]
    exact h
  · rw [if_neg hdup]
    rw [List.map_append]
    simp only [List.map_cons, List.map_nil]
    refine h.append (List.nodup_singleton _) ?_
    intro a ha hmem
    rw [List.mem_singleton] at hmem
    subst hmem
    simp only [List.any_eq_true, not_exists, not_and] at hdup
    rw [List.mem_map] at ha
    obtain ⟨e, he, hk⟩ := ha
    exact absurd (decide_eq_true hk) (by simpa using hdup e he)

theorem recordAll_key_toFinset :
    ∀ (ms errs : List ErrorMessage),
      ((recordAll errs ms).map ErrorMessage.key).toFinset =
        (errs.map ErrorMessage.key).toFinset ∪ (ms.map ErrorMessage.key).toFinset := by
  intro ms
  induction ms with
  | nil => intro errs; simp [recordAll]
  | cons m ms ih =>
      intro errs
      have hstep : recordAll errs (m :: ms) = recordAll (recordErr errs m) ms := rfl
      rw [hstep, ih (recordErr errs m), recordErr_key_toFinset]
      simp [Finset.insert_union, Finset.union_insert]

theorem recordAll_key_nodup :
    ∀ (ms errs : List ErrorMessage),
      (errs.map ErrorMessage.key).Nodup →
      ((recordAll errs ms).map ErrorMessage.key).Nodup := by
  intro ms
  induction ms with
  | nil => intro errs h; exact h
  | cons m ms ih =>
      intro errs h
      exact ih (recordErr errs m) (recordErr_key_nodup errs m h)

/-- C1: recording a diagnostic whose identity key (file, line,
message-category) was already recorded in the current run is a no-op, and
over any incoming sequence the aggregator's count equals the number of
distinct identity keys — duplicates collapse to one entry regardless of
which configuration or module produced them. -/
theorem reportErr_deduplicates :
    (∀ (errs : List ErrorMessage) (m : ErrorMessage),
        (∃ e ∈ errs, e.key = m.key) → recordErr errs m = errs) ∧
    ∀ ms : List ErrorMessage,
      (recordAll [] ms).length = (ms.map ErrorMessage.key).toFinset.card := by
  constructor
  · rintro errs m ⟨e, he, hk⟩
    unfold recordErr
    rw [if_pos (List.any_eq_true.mpr ⟨e, he, decide_eq_true hk⟩)]
  · intro ms
    have hnodup := recordAll_key_nodup ms [] (by simp)
    have hfin := recordAll_key_toFinset ms []
    have hlen : (recordAll [] ms).length =
        ((recordAll [] ms).map ErrorMessage.key).length :=
      (List.length_map _ _).symm
    rw [hlen, ← List.toFinset_card_of_nodup hnodup, hfin]
    simp

/-- Witness for C1: two sample diagnostics sharing one identity key; the
second record call is a no-op. -/
theorem reportErr_deduplicates_witness :
    recordErr [msgA] msgB = [msgA] :=
  reportErr_deduplicates.1 [msgA] msgB ⟨msgA, List.mem_singleton.mpr rfl, rfl⟩
